import Mathlib

/-!
Verification development for the Bibliometria-scopus repository.

The repository holds two scripts: `summarize_map_reduce.py` (a map-reduce
text-summarization pipeline over a hosted completion provider) and `app.py`
(a Scopus bibliometrics dashboard).  This file embeds the parts of both
scripts that the specification talks about — the pipeline driver, the
chunker, the map and reduce stages, the command-line surface, and the
Scopus search/parsing helpers — as executable Lean definitions, and proves
or refutes the specification's claims about them.

Texts and prompts are modelled as `List Char`; Python integers as `Int`
(with `Nat` where the value is known nonnegative); fallible Python code as
`Except`-valued functions.  The completion provider is an abstract oracle
`List Char → Except ProviderError (List Char)`; every call the pipeline
issues is recorded in an explicit trace so that claims about the number
and order of provider calls are statable.
-/

namespace Summarizer

/-- Python's whitespace class as used by `str.strip` on ASCII input:
space, tab, newline, carriage return, vertical tab, form feed. -/
def pyIsSpace (c : Char) : Bool :=
  c = ' ' || c = '\t' || c = '\n' || c = '\r' || c = '\x0b' || c = '\x0c'

/-- Python `str.strip()`: drop leading and trailing whitespace. -/
def pyStrip (s : List Char) : List Char :=
  ((s.dropWhile pyIsSpace).reverse.dropWhile pyIsSpace).reverse

/-- A chunk of the input document: its start offset in the document and its
character content (spec §3: start offset, text content; the sequence index
is the chunk's position in the produced list). -/
structure Chunk where
  start : Nat
  content : List Char
deriving DecidableEq, Repr

/-- Cut position `p` lies just after a paragraph break: the two characters
before `p` are newlines. -/
def isParaBreakAt (text : List Char) (p : Nat) : Bool :=
  decide (2 ≤ p) && (text.getD (p - 1) 'x' = '\n') && (text.getD (p - 2) 'x' = '\n')

/-- Cut position `p` lies just after a sentence break: the character before
`p` ends a sentence. -/
def isSentBreakAt (text : List Char) (p : Nat) : Bool :=
  text.getD (p - 1) 'x' = '.' || text.getD (p - 1) 'x' = '!' || text.getD (p - 1) 'x' = '?'

/-- Cut position `p` lies just after a whitespace character. -/
def isSpaceBreakAt (text : List Char) (p : Nat) : Bool :=
  pyIsSpace (text.getD (p - 1) 'x')

/-- Largest element of `ps` satisfying `pred`, for an ascending list `ps`. -/
def lastSat (pred : Nat → Bool) (ps : List Nat) : Option Nat :=
  (ps.filter pred).getLast?

/-- Modelled from the spec: the boundary-preference policy of the Chunker
(§4.1), whose implementation (langchain's `RecursiveCharacterTextSplitter`,
`summarize_map_reduce.py` lines 26-30) is a third-party library absent from
the repository.  Given the cursor, choose the end of the next chunk: the
largest cut position at or before `max_size` characters from the cursor
that sits on a paragraph break, else on a sentence break, else on a
whitespace break, else cut at exactly `max_size`.  Cut positions are kept
strictly beyond `cursor + overlap` so that each chunk is longer than the
overlap, per the spec's invariant "overlap < chunk size (to guarantee
forward progress and termination)" (§3). -/
def cutCandidates (ms ov cursor : Nat) : List Nat :=
  (List.range (ms - ov)).map (fun i => cursor + ov + 1 + i)

/-- Choice of the next chunk end among the candidate cut positions, by
boundary preference (see `cutCandidates` and the module comment above). -/
def chooseEnd (text : List Char) (ms ov cursor : Nat) : Nat :=
  match lastSat (isParaBreakAt text) (cutCandidates ms ov cursor) with
  | some p => p
  | none =>
    match lastSat (isSentBreakAt text) (cutCandidates ms ov cursor) with
    | some p => p
    | none =>
      match lastSat (isSpaceBreakAt text) (cutCandidates ms ov cursor) with
      | some p => p
      | none => cursor + ms

/-- Modelled from the spec: the Chunker's cursor loop (§4.1).  While more
than `max_size` characters remain, emit the chunk `[cursor, end)` chosen by
the boundary policy and advance the cursor to `end - overlap` (never
backward, hence at least to `cursor + 1`); once at most `max_size`
characters remain, emit them as the final chunk.  The fuel argument makes
the recursion structural; `text.length` fuel always suffices because the
cursor strictly advances. -/
def chunksFromAux (text : List Char) (ms ov : Nat) : Nat → Nat → List Chunk
  | fuel, cursor =>
    if text.length ≤ cursor + ms then
      [⟨cursor, text.drop cursor⟩]
    else
      match fuel with
      | 0 => []
      | fuel + 1 =>
        let e := chooseEnd text ms ov cursor
        ⟨cursor, (text.drop cursor).take (e - cursor)⟩ ::
          chunksFromAux text ms ov fuel (max (cursor + 1) (e - ov))

/-- Modelled from the spec: `split(text, max_size, overlap)` on an already
validated configuration (§4.1). -/
def splitChunks (text : List Char) (ms ov : Nat) : List Chunk :=
  chunksFromAux text ms ov text.length 0

/-- Errors surfaced by the abstract Completion Client (spec §4.2, §7):
transient failures that a caller may retry, and permanent ones. -/
inductive ProviderError where
  | retryable : ProviderError
  | fatal : ProviderError
deriving DecidableEq, Repr

/-- Errors surfaced by the pipeline itself: `InvalidInput` is the
`ValueError("Input text is empty.")` of `summarize_text` line 24;
`InvalidConfiguration` is the spec's chunker-configuration failure (§4.1);
`provider e` is a provider exception propagated unchanged. -/
inductive SummarizeError where
  | invalidInput : SummarizeError
  | invalidConfiguration : SummarizeError
  | provider : ProviderError → SummarizeError
deriving DecidableEq, Repr

/-- One Completion Client interaction recorded in the pipeline trace,
tagged by the stage (source code site) that issued it, carrying the full
prompt text sent. -/
inductive Call where
  | map : List Char → Call
  | reduce : List Char → Call
deriving DecidableEq, Repr

/-- The map-stage instruction template of `summarize_map_reduce.py`
lines 35-39; the chunk text is substituted at the end (`Trecho:\n` then
the chunk), so the full prompt is this text followed by the chunk. -/
def mapTemplate : List Char :=
  ("Você é um assistente especialista em sumarização.\n" ++
   "Resuma o trecho abaixo em até 5 bullets curtos, mantendo fatos principais.\n\n" ++
   "Trecho:\n").toList

/-- Full map-stage prompt for one chunk body (the template with the chunk
substituted for its placeholder). -/
def mapPromptFor (body : List Char) : List Char :=
  mapTemplate ++ body

/-- The reduce-stage instruction template of `summarize_map_reduce.py`
lines 45-52; the joined partial summaries are substituted at the end. -/
def reduceTemplate : List Char :=
  ("Você recebeu resumos parciais de um documento longo.\n" ++
   "Gere um resumo final em português com:\n" ++
   "1) visão geral (2-3 frases)\n" ++
   "2) principais pontos em bullets\n" ++
   "3) próximos passos sugeridos (opcional)\n\n" ++
   "Resumos parciais:\n").toList

/-- The body substituted for the reduce template's placeholder:
`"\n\n".join(partial_summaries)` (`summarize_map_reduce.py` line 55). -/
def reduceBody (partials : List (List Char)) : List Char :=
  (partials.intersperse ('\n' :: '\n' :: [])).flatten

/-- Full reduce-stage prompt for the given ordered partial summaries. -/
def reducePromptFor (partials : List (List Char)) : List Char :=
  reduceTemplate ++ reduceBody partials

/-- Map Stage (`summarize_map_reduce.py` lines 41-43): one completion call
per chunk body, sequential, in order; a provider error aborts the stage at
the failing chunk.  Returns the stage result together with the trace of
the calls actually issued. -/
def mapStage (f : List Char → Except ProviderError (List Char)) :
    List (List Char) → Except ProviderError (List (List Char)) × List Call
  | [] => (Except.ok [], [])
  | body :: rest =>
    let p := mapPromptFor body
    match f p with
    | Except.error e => (Except.error e, [Call.map p])
    | Except.ok s =>
      let r := mapStage f rest
      (r.1.map (fun ss => s :: ss), Call.map p :: r.2)

/-- Reduce Stage (`summarize_map_reduce.py` lines 53-56): one completion
call on the reduce prompt built from the ordered partial summaries. -/
def reduceStage (f : List Char → Except ProviderError (List Char))
    (partials : List (List Char)) :
    Except ProviderError (List Char) × List Call :=
  let p := reducePromptFor partials
  (f p, [Call.reduce p])

/-- Chunker entry point with configuration validation.  The validation is
modelled from the spec (§4.1): fail with `InvalidConfiguration` if
`overlap >= max_size` or either is non-positive — the repository delegates
splitting to a third-party library whose code is not in the repository. -/
def splitE (ms ov : Int) (text : List Char) : Except SummarizeError (List Chunk) :=
  if ov ≥ ms ∨ ms ≤ 0 ∨ ov ≤ 0 then
    Except.error SummarizeError.invalidConfiguration
  else
    Except.ok (splitChunks text ms.toNat ov.toNat)

/-- The Pipeline Driver `summarize_text` (`summarize_map_reduce.py`
lines 16-57): reject blank input (`if not text.strip()`), chunk the text,
run the Map Stage sequentially over every chunk, then the Reduce Stage on
the joined partial summaries.  Returns the result together with the full
ordered trace of Completion Client calls issued. -/
def summarize_text (ms ov : Int) (text : List Char)
    (f : List Char → Except ProviderError (List Char)) :
    Except SummarizeError (List Char) × List Call :=
  if pyStrip text = [] then
    (Except.error SummarizeError.invalidInput, [])
  else
    match splitE ms ov text with
    | Except.error e => (Except.error e, [])
    | Except.ok chunks =>
      let m := mapStage f (chunks.map Chunk.content)
      match m.1 with
      | Except.error e => (Except.error (SummarizeError.provider e), m.2)
      | Except.ok partials =>
        let r := reduceStage f partials
        match r.1 with
        | Except.error e => (Except.error (SummarizeError.provider e), m.2 ++ r.2)
        | Except.ok s => (Except.ok s, m.2 ++ r.2)

/-- Outcome of one run of the command-line surface: process exit code,
lines printed to standard output, and the human-readable error message (if
any) that the Python interpreter prints when an exception escapes `main`. -/
structure CliOutcome where
  exitCode : Nat
  stdout : List (List Char)
  errMsg : Option (List Char)
deriving DecidableEq, Repr

/-- The message text carried by each pipeline exception as it escapes
`main`: the `ValueError("Input text is empty.")` of line 24, the
configuration error message, or the provider exception's own text
(abstracted — only its presence matters to the claims). -/
def errorMessage : SummarizeError → List Char
  | SummarizeError.invalidInput => "Input text is empty.".toList
  | SummarizeError.invalidConfiguration => "Invalid chunk configuration.".toList
  | SummarizeError.provider ProviderError.retryable => "Retryable provider error.".toList
  | SummarizeError.provider ProviderError.fatal => "Fatal provider error.".toList

/-- The command-line surface `main` (`summarize_map_reduce.py` lines
85-99) over an abstract file system `fs` (path to contents): a missing
input file raises `FileNotFoundError(f"File not found: ...")`; otherwise
the file's text is summarized and the summary printed.  An uncaught Python
exception terminates the process with exit code 1 and its message on
stderr; success prints the summary and exits 0. -/
def main (fs : List Char → Option (List Char)) (path : List Char)
    (ms ov : Int) (f : List Char → Except ProviderError (List Char)) :
    CliOutcome :=
  match fs path with
  | none => ⟨1, [], some ("File not found: ".toList ++ path)⟩
  | some text =>
    match (summarize_text ms ov text f).1 with
    | Except.error e => ⟨1, [], some (errorMessage e)⟩
    | Except.ok s => ⟨0, [s], none⟩

/-- Tests whether a recorded Completion Client call was issued by the Map
Stage. -/
def isMapCall : Call → Bool
  | Call.map _ => true
  | Call.reduce _ => false

/-- Tests whether a recorded Completion Client call was issued by the
Reduce Stage. -/
def isReduceCall : Call → Bool
  | Call.map _ => false
  | Call.reduce _ => true

/-- Adversarial input for the claimed chunk-count bound: 12 characters in
which whitespace is laid out (spaces at indices 1, 3, 4, 6, 7, 9, 10) so
that with `max_size = 3`, `overlap = 1` the boundary-preferring chunker
repeatedly cuts at an early whitespace boundary and advances the cursor by
only 1 or 2 positions instead of `max_size - overlap = 2`. -/
def advText : List Char :=
  "a a  a  a  a".toList

/-- Ceiling division on naturals, as in the claimed bound
`ceil(L / (max_size - overlap))`. -/
def ceilDivNat (a b : Nat) : Nat := (a + b - 1) / b

/-- Whether `needle` occurs at the head of `hay`. -/
def seqAt : List Char → List Char → Bool
  | [], _ => true
  | _ :: _, [] => false
  | a :: ns, b :: hs => a = b && seqAt ns hs

/-- Whether `needle` occurs contiguously anywhere in `hay`. -/
def containsSeq (needle : List Char) : List Char → Bool
  | [] => needle.isEmpty
  | c :: rest => seqAt needle (c :: rest) || containsSeq needle rest

/-- Decimal digit string of a natural number. -/
def natTag (n : Nat) : List Char := Nat.toDigits 10 n

/-- Specification-side reading of "each tagged by its position" (spec
§4.3): the decimal position of every one of the `n` summaries occurs
somewhere in the concatenated prompt body. -/
def taggedByPosition (body : List Char) (n : Nat) : Bool :=
  (List.range n).all (fun i => containsSeq (natTag (i + 1)) body)

end Summarizer

namespace Scopus

/-- A Python value as it occurs in the JSON payloads handled by `app.py`:
`None`, booleans, integers, strings, lists, and string-keyed dictionaries.
(The repository's code paths under scrutiny never manipulate floats.) -/
inductive PyVal where
  | none : PyVal
  | bool : Bool → PyVal
  | int : Int → PyVal
  | str : List Char → PyVal
  | list : List PyVal → PyVal
  | dict : List (List Char × PyVal) → PyVal

/-- Python exceptions that the modelled `app.py` code can raise. -/
inductive PyExc where
  | attributeError : PyExc
  | typeError : PyExc
  | valueError : PyExc
deriving DecidableEq, Repr

/-- Python `d.get(k, default)` on a dictionary modelled as an association
list with distinct keys: the value at the first matching key. -/
def dictGet (kvs : List (List Char × PyVal)) (k : List Char) : Option PyVal :=
  (kvs.find? (fun kv => kv.1 = k)).map (fun kv => kv.2)

/-- Python truthiness (`bool(v)`) for the modelled values. -/
def pyTruthy : PyVal → Bool
  | PyVal.none => false
  | PyVal.bool b => b
  | PyVal.int n => n ≠ 0
  | PyVal.str s => !s.isEmpty
  | PyVal.list xs => !xs.isEmpty
  | PyVal.dict kvs => !kvs.isEmpty

/-- Python `int(s)` on a string: surrounding whitespace stripped, optional
sign, then a nonempty run of decimal digits; `none` models the
`ValueError` that any other string raises. -/
def pyIntOfStr (s : List Char) : Option Int :=
  let digitsVal : List Char → Option Nat := fun ds =>
    if ds ≠ [] && ds.all Char.isDigit then
      some (ds.foldl (fun acc c => 10 * acc + (c.toNat - '0'.toNat)) 0)
    else
      Option.none
  match Summarizer.pyStrip s with
  | '-' :: ds => (digitsVal ds).map (fun n => -(n : Int))
  | '+' :: ds => (digitsVal ds).map (fun n => (n : Int))
  | ds => (digitsVal ds).map (fun n => (n : Int))

/-- Python `int(raw)` for a payload value: integers pass through, booleans
become 0/1, strings are parsed; `none` models the `TypeError`/`ValueError`
raised on every other value (lists, dicts, `None`). -/
def pyInt : PyVal → Option Int
  | PyVal.int n => some n
  | PyVal.bool b => some (if b then 1 else 0)
  | PyVal.str s => pyIntOfStr s
  | _ => Option.none

/-- The `parse_total` helper of `app.py` lines 48-53:
`payload.get("search-results", {}).get("opensearch:totalResults", 0)`,
then `int(raw)` with `TypeError`/`ValueError` mapped to 0.  When the
`search-results` value is present but is not a dictionary, the second
`.get` raises `AttributeError`, which the function does not catch. -/
def parse_total (payload : List (List Char × PyVal)) : Except PyExc Int :=
  match (dictGet payload "search-results".toList).getD (PyVal.dict []) with
  | PyVal.dict d =>
    let raw := (dictGet d "opensearch:totalResults".toList).getD (PyVal.int 0)
    Except.ok ((pyInt raw).getD 0)
  | _ => Except.error PyExc.attributeError

/-- The entry extraction of `app.py` lines 60 and 65:
`payload.get("search-results", {}).get("entry", []) or []`.  A non-dict
`search-results` value raises `AttributeError`; a truthy non-list `entry`
value survives the `or` and makes the later list operations
(`extend`/slicing) raise, modelled as `TypeError`; every falsy value is
replaced by the empty list. -/
def entryListOf (payload : List (List Char × PyVal)) : Except PyExc (List PyVal) :=
  match (dictGet payload "search-results".toList).getD (PyVal.dict []) with
  | PyVal.dict d =>
    match (dictGet d "entry".toList).getD (PyVal.list []) with
    | PyVal.list xs => Except.ok xs
    | v => if pyTruthy v then Except.error PyExc.typeError else Except.ok []
  | _ => Except.error PyExc.attributeError

/-- Python `xs[:k]` for an integer bound `k`: the first `k` elements when
`k ≥ 0`, all but the last `-k` elements when `k < 0`. -/
def pySliceTo (xs : List PyVal) (k : Int) : List PyVal :=
  if 0 ≤ k then xs.take k.toNat else xs.take ((xs.length : Int) + k).toNat

/-- Python `range(count, stop, count)` for a nonzero step `count`:
`count, 2*count, ...` strictly below `stop`.  A zero step raises
`ValueError`. -/
def pageStarts (count : Nat) (stop : Int) : Except PyExc (List Nat) :=
  if count = 0 then
    Except.error PyExc.valueError
  else if stop ≤ (count : Int) then
    Except.ok []
  else
    Except.ok ((List.range ((stop - 1).toNat / count)).map (fun i => count * (i + 1)))

/-- The `SearchResult` dataclass of `app.py` lines 27-30. -/
structure SearchResult where
  total_results : Int
  entries : List PyVal

/-- The page-fetch loop of `app.py` lines 63-65:
`for start in ...: entries.extend(page ... entry or [])`, accumulating
onto the first page's entries; a raising page aborts the loop. -/
def fetchEntries (pages : Nat → List (List Char × PyVal)) (acc : List PyVal) :
    List Nat → Except PyExc (List PyVal)
  | [] => Except.ok acc
  | s :: rest =>
    match entryListOf (pages s) with
    | Except.error e => Except.error e
    | Except.ok es => fetchEntries pages (acc ++ es) rest

/-- The `search_scopus` function of `app.py` lines 56-67 over an abstract
page oracle (`get_page` is a network collaborator; `pages start` is the
JSON object body it returns for offset `start`): read the first page's
total and entries, fetch further pages at offsets `range(count,
min(total, max_results), count)` extending the entry list, and return the
total together with `entries[:min(total, max_results)]`. -/
def search_scopus (pages : Nat → List (List Char × PyVal)) (count : Nat)
    (max_results : Int) : Except PyExc SearchResult :=
  match parse_total (pages 0) with
  | Except.error e => Except.error e
  | Except.ok total =>
    match entryListOf (pages 0) with
    | Except.error e => Except.error e
    | Except.ok first =>
      match pageStarts count (min total max_results) with
      | Except.error e => Except.error e
      | Except.ok starts =>
        match fetchEntries pages first starts with
        | Except.error e => Except.error e
        | Except.ok entries =>
          Except.ok ⟨total, pySliceTo entries (min total max_results)⟩

/-- Whether the payload's `search-results` value, when present, is itself
a dictionary — the shape on which the chained `.get` calls of `app.py`
cannot raise. -/
def srShapeOk (payload : List (List Char × PyVal)) : Bool :=
  match dictGet payload "search-results".toList with
  | Option.none => true
  | some (PyVal.dict _) => true
  | some _ => false

/-- Specification-side description of the reported total: 0 when the
nested `opensearch:totalResults` field is missing or unparseable,
otherwise that field parsed as an integer. -/
def specTotalOf (payload : List (List Char × PyVal)) : Int :=
  match dictGet payload "search-results".toList with
  | some (PyVal.dict d) =>
    match dictGet d "opensearch:totalResults".toList with
    | some v => (pyInt v).getD 0
    | Option.none => 0
  | _ => 0

end Scopus

/-! ## Chunker lemmas -/

namespace Summarizer

theorem lastSat_mem_sat {pred : Nat → Bool} {ps : List Nat} {p : Nat}
    (h : lastSat pred ps = some p) : p ∈ ps ∧ pred p = true := by
  have hmem : p ∈ ps.filter pred := by
    rcases List.mem_getLast?_eq_getLast (show p ∈ (ps.filter pred).getLast? from h) with
      ⟨hne, hp⟩
    exact hp ▸ List.getLast_mem hne
  exact ⟨(List.mem_filter.mp hmem).1, (List.mem_filter.mp hmem).2⟩

theorem cutCandidates_bounds {ms ov cursor p : Nat} (hp : p ∈ cutCandidates ms ov cursor) :
    cursor + ov + 1 ≤ p ∧ p ≤ cursor + ms := by
  rcases List.mem_map.mp hp with ⟨i, hi, rfl⟩
  have hlt := List.mem_range.mp hi
  omega

theorem chooseEnd_cases (text : List Char) (ms ov cursor : Nat) :
    chooseEnd text ms ov cursor ∈ cutCandidates ms ov cursor ∨
      chooseEnd text ms ov cursor = cursor + ms := by
  unfold chooseEnd
  cases h1 : lastSat (isParaBreakAt text) (cutCandidates ms ov cursor) with
  | some p => exact Or.inl (lastSat_mem_sat h1).1
  | none =>
    cases h2 : lastSat (isSentBreakAt text) (cutCandidates ms ov cursor) with
    | some p => exact Or.inl (lastSat_mem_sat h2).1
    | none =>
      cases h3 : lastSat (isSpaceBreakAt text) (cutCandidates ms ov cursor) with
      | some p => exact Or.inl (lastSat_mem_sat h3).1
      | none => exact Or.inr rfl

theorem chooseEnd_le (text : List Char) (ms ov cursor : Nat) :
    chooseEnd text ms ov cursor ≤ cursor + ms := by
  rcases chooseEnd_cases text ms ov cursor with h | h
  · exact (cutCandidates_bounds h).2
  · omega

theorem chooseEnd_lower (text : List Char) {ms ov : Nat} (cursor : Nat) (h : ov < ms) :
    cursor + ov + 1 ≤ chooseEnd text ms ov cursor := by
  rcases chooseEnd_cases text ms ov cursor with hc | hc
  · exact (cutCandidates_bounds hc).1
  · omega

theorem chunksFromAux_stop {text : List Char} {ms ov fuel cursor : Nat}
    (h : text.length ≤ cursor + ms) :
    chunksFromAux text ms ov fuel cursor = [⟨cursor, text.drop cursor⟩] := by
  rw [chunksFromAux.eq_def]
  simp [h]

theorem chunksFromAux_step {text : List Char} {ms ov fuel cursor : Nat}
    (h : ¬ text.length ≤ cursor + ms) :
    chunksFromAux text ms ov (fuel + 1) cursor =
      ⟨cursor, (text.drop cursor).take (chooseEnd text ms ov cursor - cursor)⟩ ::
        chunksFromAux text ms ov fuel
          (max (cursor + 1) (chooseEnd text ms ov cursor - ov)) := by
  rw [chunksFromAux.eq_def]
  simp [h]

theorem chunksFromAux_len_le (text : List Char) (ms ov : Nat) :
    ∀ fuel cursor, ∀ c ∈ chunksFromAux text ms ov fuel cursor,
      c.content.length ≤ ms := by
  intro fuel
  induction fuel with
  | zero =>
    intro cursor c hc
    rw [chunksFromAux.eq_def] at hc
    by_cases h : text.length ≤ cursor + ms
    · simp [h] at hc
      subst hc
      simp
      omega
    · simp [h] at hc
  | succ fuel ih =>
    intro cursor c hc
    by_cases h : text.length ≤ cursor + ms
    · rw [chunksFromAux_stop h] at hc
      simp at hc
      subst hc
      simp
      omega
    · rw [chunksFromAux_step h] at hc
      rcases List.mem_cons.mp hc with hc | hc
      · subst hc
        have hle := chooseEnd_le text ms ov cursor
        simp
        omega
      · exact ih _ c hc

theorem chunksFromAux_cover (text : List Char) {ms ov : Nat} (hov : ov < ms) :
    ∀ fuel cursor, text.length ≤ fuel + cursor + ms →
      ∀ i, cursor ≤ i → i < text.length →
        ∃ c, c ∈ chunksFromAux text ms ov fuel cursor ∧
          c.start ≤ i ∧ i < c.start + c.content.length := by
  intro fuel
  induction fuel with
  | zero =>
    intro cursor hfuel i hci hil
    have h : text.length ≤ cursor + ms := by omega
    refine ⟨⟨cursor, text.drop cursor⟩, ?_, ?_, ?_⟩
    · rw [chunksFromAux_stop h]; exact List.mem_singleton.mpr rfl
    · exact hci
    · simp
      omega
  | succ fuel ih =>
    intro cursor hfuel i hci hil
    by_cases h : text.length ≤ cursor + ms
    · refine ⟨⟨cursor, text.drop cursor⟩, ?_, ?_, ?_⟩
      · rw [chunksFromAux_stop h]; exact List.mem_singleton.mpr rfl
      · exact hci
      · simp
        omega
    · have hb1 := chooseEnd_lower text cursor hov
      have hb2 := chooseEnd_le text ms ov cursor
      by_cases hie : i < chooseEnd text ms ov cursor
      · refine ⟨⟨cursor, (text.drop cursor).take (chooseEnd text ms ov cursor - cursor)⟩,
          ?_, ?_, ?_⟩
        · rw [chunksFromAux_step h]; exact List.mem_cons_self _ _
        · exact hci
        · simp
          omega
      · rcases ih (max (cursor + 1) (chooseEnd text ms ov cursor - ov)) (by omega) i
          (by omega) hil with ⟨c, hc, hc1, hc2⟩
        refine ⟨c, ?_, hc1, hc2⟩
        rw [chunksFromAux_step h]
        exact List.mem_cons_of_mem _ hc

theorem chunksFromAux_count (text : List Char) (ms ov : Nat) :
    ∀ fuel cursor,
      (chunksFromAux text ms ov fuel cursor).length ≤ 1 + (text.length - cursor - ms) := by
  intro fuel
  induction fuel with
  | zero =>
    intro cursor
    rw [chunksFromAux]
    by_cases h : text.length ≤ cursor + ms <;> simp [h]
  | succ fuel ih =>
    intro cursor
    by_cases h : text.length ≤ cursor + ms
    · rw [chunksFromAux_stop h]; simp
    · rw [chunksFromAux_step h]
      have := ih (max (cursor + 1) (chooseEnd text ms ov cursor - ov))
      simp only [List.length_cons]
      omega

theorem splitChunks_short {text : List Char} {ms ov : Nat} (h : text.length ≤ ms) :
    splitChunks text ms ov = [⟨0, text⟩] := by
  unfold splitChunks
  rw [chunksFromAux_stop (by omega)]
  simp

theorem mapStage_ok (g : List Char → List Char) :
    ∀ bodies, mapStage (fun p => Except.ok (g p)) bodies =
      (Except.ok (bodies.map (fun b => g (mapPromptFor b))),
       bodies.map (fun b => Call.map (mapPromptFor b))) := by
  intro bodies
  induction bodies with
  | nil => rfl
  | cons b rest ih => simp [mapStage, ih, Except.map]

theorem mapStage_err (f : List Char → Except ProviderError (List Char))
    (e : ProviderError) :
    ∀ (bodies : List (List Char)) (i : Nat), i < bodies.length →
      (∀ j, j < i → ∃ s, f (mapPromptFor (bodies.getD j [])) = Except.ok s) →
      f (mapPromptFor (bodies.getD i [])) = Except.error e →
      mapStage f bodies =
        (Except.error e,
         (bodies.take (i + 1)).map (fun b => Call.map (mapPromptFor b))) := by
  intro bodies
  induction bodies with
  | nil => intro i hi; simp at hi
  | cons b rest ih =>
    intro i hi hpre hf
    cases i with
    | zero =>
      simp at hf
      simp [mapStage, hf]
    | succ i =>
      rcases hpre 0 (by omega) with ⟨s, hs⟩
      simp at hs
      have hrest := ih i (by simpa using hi)
        (fun j hj => by simpa using hpre (j + 1) (by omega)) (by simpa using hf)
      simp [mapStage, hs, hrest, Except.map]

/-- C2 (counterexample): the claimed chunk-count bound
`ceil(L / (max_size - overlap))` fails.  With the valid configuration
`max_size = 3`, `overlap = 1` (so `0 < overlap < max_size`) the
boundary-preferring chunker produces 7 chunks on the 12-character text
`advText`, exceeding `ceil(12 / 2) = 6`: early whitespace boundaries make
the cursor advance by less than `max_size - overlap` on most steps. -/
theorem splitChunks_count_exceeds_ceil :
    (0 : Int) < 1 ∧ (1 : Int) < 3 ∧
    splitE 3 1 advText = Except.ok (splitChunks advText 3 1) ∧
    ¬ ((splitChunks advText 3 1).length ≤ ceilDivNat advText.length (3 - 1)) := by
  refine ⟨by decide, by decide, rfl, ?_⟩
  decide

/-- C1: for blank (empty or whitespace-only) input, `summarize_text` fails
with `InvalidInput` and issues zero Completion Client calls — the trace of
issued calls is empty and no chunking result is consumed. -/
theorem summarize_text_blank (ms ov : Int) (text : List Char)
    (f : List Char → Except ProviderError (List Char))
    (h : pyStrip text = []) :
    summarize_text ms ov text f = (Except.error SummarizeError.invalidInput, []) := by
  simp [summarize_text, h]

theorem summarize_text_blank_witness :
    pyStrip " \t\n".toList = [] ∧
    summarize_text 2000 200 " \t\n".toList (fun _ => Except.ok []) =
      (Except.error SummarizeError.invalidInput, []) :=
  ⟨rfl, summarize_text_blank 2000 200 " \t\n".toList (fun _ => Except.ok []) rfl⟩

/-- C2 (amended): for every configuration the chunker accepts
(`0 < overlap < max_size`) and every text of length L, the chunks cover
every character position of `[0, L)`, each chunk has length at most
`max_size`, and there are at most `1 + (L - max_size)` chunks (the cursor
advances by at least one position per chunk; the originally claimed bound
`ceil(L / (max_size - overlap))` is refuted by
`splitChunks_count_exceeds_ceil`). -/
theorem splitE_chunks_sound (ms ov : Int) (text : List Char) (cs : List Chunk)
    (h : splitE ms ov text = Except.ok cs) :
    (∀ i, i < text.length →
        ∃ c, c ∈ cs ∧ c.start ≤ i ∧ i < c.start + c.content.length) ∧
    (∀ c, c ∈ cs → c.content.length ≤ ms.toNat) ∧
    cs.length ≤ 1 + (text.length - ms.toNat) := by
  unfold splitE at h
  by_cases hv : ov ≥ ms ∨ ms ≤ 0 ∨ ov ≤ 0
  · simp [hv] at h
  · simp [hv] at h
    push_neg at hv
    have hov : ov.toNat < ms.toNat := by omega
    subst h
    refine ⟨?_, ?_, ?_⟩
    · intro i hi
      exact chunksFromAux_cover text hov text.length 0 (by omega) i (by omega) hi
    · intro c hc
      exact chunksFromAux_len_le text ms.toNat ov.toNat text.length 0 c hc
    · simpa [splitChunks] using chunksFromAux_count text ms.toNat ov.toNat text.length 0

theorem splitE_chunks_sound_witness :
    splitE 10 3 "AAAA BBBB CCCC DDDD".toList =
        Except.ok (splitChunks "AAAA BBBB CCCC DDDD".toList 10 3) ∧
    ((∀ i, i < ("AAAA BBBB CCCC DDDD".toList).length →
        ∃ c, c ∈ splitChunks "AAAA BBBB CCCC DDDD".toList 10 3 ∧
          c.start ≤ i ∧ i < c.start + c.content.length) ∧
     (∀ c, c ∈ splitChunks "AAAA BBBB CCCC DDDD".toList 10 3 →
        c.content.length ≤ (10 : Int).toNat) ∧
     (splitChunks "AAAA BBBB CCCC DDDD".toList 10 3).length ≤
        1 + (("AAAA BBBB CCCC DDDD".toList).length - (10 : Int).toNat)) :=
  ⟨rfl, splitE_chunks_sound 10 3 "AAAA BBBB CCCC DDDD".toList
      (splitChunks "AAAA BBBB CCCC DDDD".toList 10 3) rfl⟩

/-- C3: a chunking configuration with `overlap ≥ max_size` or a
non-positive `max_size` or `overlap` fails with `InvalidConfiguration` and
produces no chunks. -/
theorem splitE_invalid_config (ms ov : Int) (text : List Char)
    (h : ov ≥ ms ∨ ms ≤ 0 ∨ ov ≤ 0) :
    splitE ms ov text = Except.error SummarizeError.invalidConfiguration := by
  simp [splitE, h]

theorem splitE_invalid_config_witness :
    ((5 : Int) ≥ 5 ∨ (5 : Int) ≤ 0 ∨ (5 : Int) ≤ 0) ∧
    splitE 5 5 "hello".toList = Except.error SummarizeError.invalidConfiguration :=
  ⟨by decide, splitE_invalid_config 5 5 "hello".toList (by decide)⟩

/-- C6: a non-blank text strictly shorter than `max_size`, under a valid
configuration, is chunked into exactly one chunk whose content is the whole
input text, and the pipeline's Map Stage issues exactly one completion
call (whatever the Completion Client answers). -/
theorem short_text_single_chunk (ms ov : Int) (text : List Char)
    (f : List Char → Except ProviderError (List Char))
    (hb : ¬ pyStrip text = []) (h0 : 0 < ov) (hov : ov < ms)
    (hlen : (text.length : Int) < ms) :
    splitE ms ov text = Except.ok [⟨0, text⟩] ∧
    (summarize_text ms ov text f).2.countP isMapCall = 1 := by
  have hv : ¬ (ov ≥ ms ∨ ms ≤ 0 ∨ ov ≤ 0) := by omega
  have hsplit : splitE ms ov text = Except.ok [⟨0, text⟩] := by
    unfold splitE
    rw [if_neg hv, splitChunks_short (by omega)]
  refine ⟨hsplit, ?_⟩
  unfold summarize_text
  rw [if_neg hb, hsplit]
  cases hf : f (mapPromptFor text) with
  | error e => simp [mapStage, hf, isMapCall]
  | ok s =>
    cases hr : f (reducePromptFor [s]) with
    | error e => simp [mapStage, reduceStage, hf, hr, isMapCall, Except.map]
    | ok t => simp [mapStage, reduceStage, hf, hr, isMapCall, Except.map]

theorem short_text_single_chunk_witness :
    (¬ pyStrip "hi".toList = []) ∧
    splitE 2000 200 "hi".toList = Except.ok [⟨0, "hi".toList⟩] ∧
    (summarize_text 2000 200 "hi".toList (fun _ => Except.ok [])).2.countP isMapCall = 1 :=
  ⟨by decide, short_text_single_chunk 2000 200 "hi".toList (fun _ => Except.ok [])
      (by decide) (by decide) (by decide) (by decide)⟩

/-- C7: chunking is deterministic — two runs on identical
`(text, max_size, overlap)` inputs yield the identical ordered chunk
sequence; the chunker is a pure function with no other input. -/
theorem splitChunks_deterministic (t₁ t₂ : List Char) (ms₁ ms₂ ov₁ ov₂ : Nat)
    (ht : t₁ = t₂) (hms : ms₁ = ms₂) (hov : ov₁ = ov₂) :
    splitChunks t₁ ms₁ ov₁ = splitChunks t₂ ms₂ ov₂ := by
  subst ht; subst hms; subst hov; rfl

theorem splitChunks_deterministic_witness :
    "ab cd".toList = "ab cd".toList ∧
    splitChunks "ab cd".toList 10 3 = splitChunks "ab cd".toList 10 3 :=
  ⟨rfl, splitChunks_deterministic "ab cd".toList "ab cd".toList 10 10 3 3 rfl rfl rfl⟩

/-- C4 (counterexample): the Reduce Stage does not tag partial summaries
by position.  For the two digit-free partial summaries `alpha` and `beta`
the prompt body is exactly `alpha\n\nbeta` — the bare join — which
contains no digit at all, hence no decimal position tag for any summary. -/
theorem reduceBody_has_no_position_tags :
    reduceBody ["alpha".toList, "beta".toList] = "alpha\n\nbeta".toList ∧
    taggedByPosition (reduceBody ["alpha".toList, "beta".toList]) 2 = false ∧
    (reduceBody ["alpha".toList, "beta".toList]).all (fun c => !c.isDigit) = true := by
  exact ⟨rfl, by decide, by decide⟩

/-- C4 (amended): for every non-blank input accepted by the chunker and a
Completion Client that answers every prompt, the pipeline joins the
partial summaries — in ascending original chunk order, separated by blank
lines, without position tags — into the single reduce prompt, and the
Reduce Stage issues exactly one Completion Client call producing the
FinalSummary. -/
theorem reduce_once_in_order (ms ov : Int) (text : List Char)
    (g : List Char → List Char) (cs : List Chunk)
    (hb : ¬ pyStrip text = []) (hs : splitE ms ov text = Except.ok cs) :
    summarize_text ms ov text (fun p => Except.ok (g p)) =
      (Except.ok (g (reducePromptFor
          ((cs.map Chunk.content).map (fun b => g (mapPromptFor b))))),
       (cs.map Chunk.content).map (fun b => Call.map (mapPromptFor b)) ++
         [Call.reduce (reducePromptFor
            ((cs.map Chunk.content).map (fun b => g (mapPromptFor b))))]) ∧
    (summarize_text ms ov text (fun p => Except.ok (g p))).2.countP isReduceCall = 1 := by
  have hmain : summarize_text ms ov text (fun p => Except.ok (g p)) =
      (Except.ok (g (reducePromptFor
          ((cs.map Chunk.content).map (fun b => g (mapPromptFor b))))),
       (cs.map Chunk.content).map (fun b => Call.map (mapPromptFor b)) ++
         [Call.reduce (reducePromptFor
            ((cs.map Chunk.content).map (fun b => g (mapPromptFor b))))]) := by
    unfold summarize_text
    rw [if_neg hb, hs]
    simp [mapStage_ok, reduceStage]
  refine ⟨hmain, ?_⟩
  rw [hmain]
  simp [isReduceCall, List.countP_append, List.countP_map, Function.comp,
    List.countP_cons]

theorem reduce_once_in_order_witness :
    (¬ pyStrip "hi".toList = []) ∧
    summarize_text 2000 200 "hi".toList (fun p => Except.ok ('S' :: p.take 0)) =
      (Except.ok ('S' :: ([] : List Char)),
       [Call.map (mapPromptFor "hi".toList),
        Call.reduce (reducePromptFor [('S' : Char) :: []])]) ∧
    (summarize_text 2000 200 "hi".toList
        (fun p => Except.ok ('S' :: p.take 0))).2.countP isReduceCall = 1 := by
  have h := reduce_once_in_order 2000 200 "hi".toList
    (fun p => 'S' :: p.take 0) [⟨0, "hi".toList⟩] (by decide) rfl
  exact ⟨by decide, h.1, h.2⟩

/-- C5: if any single Map Stage call fails with a provider error (after
the calls before it succeeded), the pipeline aborts: the same error is
propagated to the caller (wrapped only by this embedding's error sum), the
trace stops at the failing call with no retry, and no Reduce Stage call is
ever issued. -/
theorem map_failure_aborts (ms ov : Int) (text : List Char)
    (f : List Char → Except ProviderError (List Char)) (e : ProviderError)
    (cs : List Chunk) (i : Nat)
    (hb : ¬ pyStrip text = []) (hs : splitE ms ov text = Except.ok cs)
    (hi : i < cs.length)
    (hpre : ∀ j, j < i →
      ∃ s, f (mapPromptFor ((cs.map Chunk.content).getD j [])) = Except.ok s)
    (hf : f (mapPromptFor ((cs.map Chunk.content).getD i [])) = Except.error e) :
    summarize_text ms ov text f =
      (Except.error (SummarizeError.provider e),
       ((cs.map Chunk.content).take (i + 1)).map (fun b => Call.map (mapPromptFor b))) ∧
    ∀ q, Call.reduce q ∉ (summarize_text ms ov text f).2 := by
  have hlen : i < (cs.map Chunk.content).length := by simpa using hi
  have hm := mapStage_err f e (cs.map Chunk.content) i hlen hpre hf
  have hmain : summarize_text ms ov text f =
      (Except.error (SummarizeError.provider e),
       ((cs.map Chunk.content).take (i + 1)).map
         (fun b => Call.map (mapPromptFor b))) := by
    unfold summarize_text
    rw [if_neg hb, hs]
    simp [hm]
  refine ⟨hmain, ?_⟩
  rw [hmain]
  intro q hq
  rcases List.mem_map.mp hq with ⟨b, hb2, hc⟩
  exact Call.noConfusion hc

theorem map_failure_aborts_witness :
    summarize_text 3 1 "ab".toList (fun _ => Except.error ProviderError.retryable) =
      (Except.error (SummarizeError.provider ProviderError.retryable),
       ((([⟨0, "ab".toList⟩] : List Chunk).map Chunk.content).take (0 + 1)).map
         (fun b => Call.map (mapPromptFor b))) ∧
    ∀ q, Call.reduce q ∉ (summarize_text 3 1 "ab".toList
        (fun _ => Except.error ProviderError.retryable)).2 :=
  map_failure_aborts 3 1 "ab".toList (fun _ => Except.error ProviderError.retryable)
    ProviderError.retryable [⟨0, "ab".toList⟩] 0 (by decide) rfl (by decide)
    (fun j hj => absurd hj (Nat.not_lt_zero j)) rfl

/-- C8: the command-line surface prints the FinalSummary to standard
output and exits 0 on success, and exits non-zero with a human-readable
message when the input file is missing or when the pipeline fails
(InvalidInput, invalid configuration, or a provider error). -/
theorem main_cli_contract (fs : List Char → Option (List Char)) (path : List Char)
    (ms ov : Int) (f : List Char → Except ProviderError (List Char)) :
    (fs path = none →
      main fs path ms ov f = ⟨1, [], some ("File not found: ".toList ++ path)⟩) ∧
    (∀ text s, fs path = some text →
      (summarize_text ms ov text f).1 = Except.ok s →
      main fs path ms ov f = ⟨0, [s], none⟩) ∧
    (∀ text e, fs path = some text →
      (summarize_text ms ov text f).1 = Except.error e →
      (main fs path ms ov f).exitCode ≠ 0 ∧
        (main fs path ms ov f).errMsg = some (errorMessage e)) := by
  refine ⟨?_, ?_, ?_⟩
  · intro h
    simp [main, h]
  · intro text s hfs hok
    simp [main, hfs, hok]
  · intro text e hfs herr
    simp [main, hfs, herr]

theorem main_cli_contract_witness :
    ((fun _ : List Char => some "hi".toList) "doc.txt".toList = some "hi".toList) ∧
    main (fun _ => some "hi".toList) "doc.txt".toList 2000 200
        (fun _ => Except.ok "S".toList) = ⟨0, ["S".toList], none⟩ :=
  ⟨rfl, (main_cli_contract (fun _ => some "hi".toList) "doc.txt".toList 2000 200
      (fun _ => Except.ok "S".toList)).2.1 "hi".toList "S".toList rfl rfl⟩

end Summarizer

namespace Scopus

/-- C10 (counterexample): `parse_total` can raise.  On the dictionary
payload `{"search-results": 0}` the second chained `.get` is attribute
access on the integer 0, raising `AttributeError`, which `parse_total`
does not catch. -/
theorem parse_total_raises_attributeError :
    parse_total [("search-results".toList, PyVal.int 0)] =
      Except.error PyExc.attributeError := rfl

/-- C10 (amended): for every dictionary payload whose `search-results`
value, when present, is itself a dictionary, `parse_total` never raises:
it returns 0 when the nested total field is missing or cannot be parsed
as an integer, and otherwise returns that field parsed as an integer. -/
theorem parse_total_never_raises (payload : List (List Char × PyVal))
    (h : srShapeOk payload = true) :
    parse_total payload = Except.ok (specTotalOf payload) := by
  unfold srShapeOk at h
  cases hd : dictGet payload ("search-results".toList) with
  | none =>
    unfold parse_total specTotalOf
    rw [hd]
    rfl
  | some v =>
    rw [hd] at h
    cases v with
    | dict d =>
      unfold parse_total specTotalOf
      rw [hd]
      show Except.ok ((pyInt ((dictGet d ("opensearch:totalResults".toList)).getD
          (PyVal.int 0))).getD 0) =
        Except.ok (match dictGet d ("opensearch:totalResults".toList) with
          | some v => (pyInt v).getD 0
          | Option.none => 0)
      cases dictGet d ("opensearch:totalResults".toList) with
      | none => rfl
      | some w => rfl
    | none => simp at h
    | bool b => simp at h
    | int n => simp at h
    | str s => simp at h
    | list xs => simp at h

theorem parse_total_never_raises_witness :
    srShapeOk [("search-results".toList, PyVal.dict
        [("opensearch:totalResults".toList, PyVal.str "42".toList)])] = true ∧
    parse_total [("search-results".toList, PyVal.dict
        [("opensearch:totalResults".toList, PyVal.str "42".toList)])] =
      Except.ok (specTotalOf [("search-results".toList, PyVal.dict
        [("opensearch:totalResults".toList, PyVal.str "42".toList)])]) :=
  ⟨rfl, parse_total_never_raises _ rfl⟩

theorem pySliceTo_length_le (xs : List PyVal) (k : Int) (hk : 0 ≤ k) :
    ((pySliceTo xs k).length : Int) ≤ k := by
  unfold pySliceTo
  rw [if_pos hk]
  simp [List.length_take]
  omega

/-- C9 (counterexample): the claimed entry-count bound
`min(total, max_results)` fails when the first page reports a negative
total.  With `totalResults = "-1"` and one entry on the first page,
`search_scopus` succeeds with an empty entry list, but
`min(total, max_results) = -1 < 0` bounds nothing. -/
theorem search_scopus_negative_total :
    search_scopus (fun _ => [("search-results".toList, PyVal.dict
        [("opensearch:totalResults".toList, PyVal.str "-1".toList),
         ("entry".toList, PyVal.list [PyVal.dict []])])]) 25 200 =
      Except.ok ⟨-1, []⟩ ∧
    ¬ ((([] : List PyVal).length : Int) ≤ min (-1 : Int) 200) := by
  exact ⟨rfl, by decide⟩

/-- C9 (amended): for every successful call with a nonnegative
`max_results` and a nonnegative reported total, the returned entries list
has length at most `min(total, max_results)` — the collected entries are
truncated to the analysis cap. -/
theorem search_scopus_entries_le (pages : Nat → List (List Char × PyVal))
    (count : Nat) (max_results : Int) (r : SearchResult)
    (hmr : 0 ≤ max_results)
    (hok : search_scopus pages count max_results = Except.ok r)
    (ht : 0 ≤ r.total_results) :
    (r.entries.length : Int) ≤ min r.total_results max_results := by
  unfold search_scopus at hok
  split at hok
  · simp at hok
  rename_i total h1
  split at hok
  · simp at hok
  rename_i first h2
  split at hok
  · simp at hok
  rename_i starts h3
  split at hok
  · simp at hok
  rename_i entries h4
  have hr := Except.ok.inj hok
  subst hr
  have hmin : (0 : Int) ≤ min total max_results := le_min ht hmr
  exact pySliceTo_length_le entries (min total max_results) hmin

theorem search_scopus_entries_le_witness :
    (0 : Int) ≤ 200 ∧
    search_scopus (fun _ => [("search-results".toList, PyVal.dict
        [("opensearch:totalResults".toList, PyVal.str "2".toList),
         ("entry".toList, PyVal.list [PyVal.none])])]) 25 200 =
      Except.ok ⟨2, [PyVal.none]⟩ ∧
    ((([PyVal.none] : List PyVal).length : Int) ≤ min (2 : Int) 200) :=
  ⟨by decide, rfl,
   search_scopus_entries_le (fun _ => [("search-results".toList, PyVal.dict
        [("opensearch:totalResults".toList, PyVal.str "2".toList),
         ("entry".toList, PyVal.list [PyVal.none])])]) 25 200
     ⟨2, [PyVal.none]⟩ (by decide) rfl (by decide)⟩

end Scopus
